import Mathlib

/-!
Verification of the per-CPU time-accounting subsystem of the Asterinas
kernel fork at hand: the counter manager in `kernel/src/time/cpu_stat.rs`,
its timer-tick classifier, and the `/proc/stat` and `/proc/uptime`
exposition formatters in `kernel/src/fs/procfs/{stat,uptime}.rs`.

The Rust code is shallowly embedded: counters (`CpuClock`, an atomic
jiffies counter) become `Nat` values, the per-CPU bundle vector becomes a
`List`, increments become pure state transformers, and the singleton
`Once` cell plus callback registration become an explicit system state.
Machine-word overflow of jiffies counters is not modelled: the source data
model declares that wraps are assumed not to occur within system lifetime.
-/

namespace AsterinasCpuStat

/-- Snapshot of CPU usage statistics (`Cpustat` in `cpu_stat.rs`): ten
named jiffies counts taken at one instant per field. -/
structure Cpustat where
  user : Nat
  nice : Nat
  system : Nat
  idle : Nat
  iowait : Nat
  irq : Nat
  softirq : Nat
  steal : Nat
  guest : Nat
  guest_nice : Nat
deriving DecidableEq, Repr

/-- Internal counter bundle (`_Cpustat` in `cpu_stat.rs`): ten live
counters. Each `Arc<CpuClock>` — an atomic jiffies counter, whose code is
not shown in the sample; modelled from the spec: a Tick Counter is an
unsigned integer that `add(ticks)` increases and `read()` loads — is
embedded as a plain `Nat`. -/
structure CounterBundle where
  user : Nat
  nice : Nat
  system : Nat
  idle : Nat
  iowait : Nat
  irq : Nat
  softirq : Nat
  steal : Nat
  guest : Nat
  guest_nice : Nat
deriving DecidableEq, Repr

namespace CounterBundle

/-- The `_Cpustat::new` constructor: every counter starts at zero
(`CpuClock::new()` creates a fresh counter). -/
def new : CounterBundle :=
  ⟨0, 0, 0, 0, 0, 0, 0, 0, 0, 0⟩

instance : Inhabited CounterBundle := ⟨new⟩

/-- The `_Cpustat::load` snapshot: read every counter. -/
def load (s : CounterBundle) : Cpustat :=
  ⟨s.user, s.nice, s.system, s.idle, s.iowait, s.irq, s.softirq, s.steal,
    s.guest, s.guest_nice⟩

/-- One `self.user.add_jiffies(val)` call on a bundle. -/
def add_user (s : CounterBundle) (val : Nat) : CounterBundle :=
  { s with user := s.user + val }

/-- One `self.system.add_jiffies(val)` call on a bundle. -/
def add_system (s : CounterBundle) (val : Nat) : CounterBundle :=
  { s with system := s.system + val }

/-- One `self.idle.add_jiffies(val)` call on a bundle. -/
def add_idle (s : CounterBundle) (val : Nat) : CounterBundle :=
  { s with idle := s.idle + val }

end CounterBundle

/-- The ten counter categories of a bundle, used to state field-by-field
properties of the operations. -/
inductive StatField where
  | user
  | nice
  | system
  | idle
  | iowait
  | irq
  | softirq
  | steal
  | guest
  | guest_nice
deriving DecidableEq, Repr

/-- Read one named counter of a live bundle. -/
def CounterBundle.fieldVal (s : CounterBundle) : StatField → Nat
  | .user => s.user
  | .nice => s.nice
  | .system => s.system
  | .idle => s.idle
  | .iowait => s.iowait
  | .irq => s.irq
  | .softirq => s.softirq
  | .steal => s.steal
  | .guest => s.guest
  | .guest_nice => s.guest_nice

/-- Read one named value of a snapshot. -/
def Cpustat.field (s : Cpustat) : StatField → Nat
  | .user => s.user
  | .nice => s.nice
  | .system => s.system
  | .idle => s.idle
  | .iowait => s.iowait
  | .irq => s.irq
  | .softirq => s.softirq
  | .steal => s.steal
  | .guest => s.guest
  | .guest_nice => s.guest_nice

/-- The Stat Manager (`CpuStatManager` in `cpu_stat.rs`): one counter
bundle per CPU plus one global bundle. -/
structure CpuStatManager where
  per_cpu_stats : List CounterBundle
  global_stats : CounterBundle
deriving DecidableEq, Repr

namespace CpuStatManager

/-- The `CpuStatManager::new(num_cpus)` constructor: `num_cpus` fresh
per-CPU bundles (the source pushes `_Cpustat::new()` into a vector
`num_cpus` times) plus a fresh global bundle. -/
def new (num_cpus : Nat) : CpuStatManager :=
  { per_cpu_stats := List.replicate num_cpus CounterBundle.new
    global_stats := CounterBundle.new }

/-- The `get_on_cpu(cpu)` accessor, `self.per_cpu_stats[cpu].load()`.
Rust index panics on an out-of-range index; the embedding returns `none`
exactly in the panicking case. -/
def get_on_cpu (self : CpuStatManager) (cpu : Nat) : Option Cpustat :=
  (self.per_cpu_stats.get? cpu).map CounterBundle.load

/-- The `get_global()` accessor, `self.global_stats.load()`. -/
def get_global (self : CpuStatManager) : Cpustat :=
  self.global_stats.load

/-- The `inc_user_time(cpu, val)` operation: guarded by
`cpu < self.per_cpu_stats.len()`, it adds `val` jiffies to the per-CPU
user counter and to the global user counter; out of range it does
nothing. -/
def inc_user_time (self : CpuStatManager) (cpu : Nat) (val : Nat) :
    CpuStatManager :=
  if cpu < self.per_cpu_stats.length then
    { self with
      per_cpu_stats :=
        self.per_cpu_stats.set cpu
          ((self.per_cpu_stats.getD cpu CounterBundle.new).add_user val)
      global_stats := self.global_stats.add_user val }
  else
    self

/-- The `inc_system_time(cpu, val)` operation, same guard, on the system
counters. -/
def inc_system_time (self : CpuStatManager) (cpu : Nat) (val : Nat) :
    CpuStatManager :=
  if cpu < self.per_cpu_stats.length then
    { self with
      per_cpu_stats :=
        self.per_cpu_stats.set cpu
          ((self.per_cpu_stats.getD cpu CounterBundle.new).add_system val)
      global_stats := self.global_stats.add_system val }
  else
    self

/-- The `inc_idle_time(cpu, val)` operation, same guard, on the idle
counters. -/
def inc_idle_time (self : CpuStatManager) (cpu : Nat) (val : Nat) :
    CpuStatManager :=
  if cpu < self.per_cpu_stats.length then
    { self with
      per_cpu_stats :=
        self.per_cpu_stats.set cpu
          ((self.per_cpu_stats.getD cpu CounterBundle.new).add_idle val)
      global_stats := self.global_stats.add_idle val }
  else
    self

end CpuStatManager

/-- Modelled from the spec: the scheduling policy of a thread, of which
the classifier only inspects whether it is the idle policy
(`SchedPolicy::Idle`); the enum itself lives outside the shown sources. -/
inductive SchedPolicy where
  | stop
  | realTime
  | fair
  | idle
deriving DecidableEq, Repr

/-- The `is_idle()` helper: `Thread::current()` is embedded as an
`Option SchedPolicy` argument (the policy of the current thread, when
there is one); with no current thread the answer is `false`. -/
def is_idle (current_policy : Option SchedPolicy) : Bool :=
  match current_policy with
  | some p => p == SchedPolicy.idle
  | none => false

/-- The timer-interrupt callback `update_cpu_statistics()`. Its ambient
inputs become parameters: `cpu_id` (the current CPU read under the
preemption guard), `is_kernel` (`is_kernel_interrupted()`), and the
current thread's policy consumed by `is_idle`. -/
def update_cpu_statistics (m : CpuStatManager) (cpu_id : Nat)
    (is_kernel : Bool) (current_policy : Option SchedPolicy) :
    CpuStatManager :=
  if is_idle current_policy then
    m.inc_idle_time cpu_id 1
  else if is_kernel then
    m.inc_system_time cpu_id 1
  else
    m.inc_user_time cpu_id 1

example :
    ((update_cpu_statistics (CpuStatManager.new 2) 0 true
        (some SchedPolicy.idle)).get_global).idle = 1 := by
  decide

example :
    ((update_cpu_statistics (CpuStatManager.new 2) 1 true
        none).get_global).system = 1 := by
  decide

section ListLemmas

variable {α : Type u}

theorem getD_set_self (l : List α) (i : Nat) (a d : α) (h : i < l.length) :
    (l.set i a).getD i d = a := by
  induction l generalizing i with
  | nil => simp at h
  | cons x xs ih =>
    cases i with
    | zero => simp [List.set, List.getD]
    | succ n =>
      simp only [List.set, List.getD, List.get?]
      exact ih n (by simpa using h)

theorem getD_set_ne (l : List α) (i j : Nat) (a d : α) (h : i ≠ j) :
    (l.set i a).getD j d = l.getD j d := by
  induction l generalizing i j with
  | nil => simp [List.set]
  | cons x xs ih =>
    cases i with
    | zero =>
      cases j with
      | zero => exact absurd rfl h
      | succ m => simp [List.set, List.getD]
    | succ n =>
      cases j with
      | zero => simp [List.set, List.getD]
      | succ m =>
        simp only [List.set, List.getD, List.get?]
        exact ih n m (fun hc => h (by rw [hc]))

end ListLemmas

namespace CounterBundle

theorem fieldVal_add_user (s : CounterBundle) (v : Nat) (f : StatField) :
    (s.add_user v).fieldVal f
      = s.fieldVal f + (if f = StatField.user then v else 0) := by
  cases f <;> simp [add_user, fieldVal]

theorem fieldVal_add_system (s : CounterBundle) (v : Nat) (f : StatField) :
    (s.add_system v).fieldVal f
      = s.fieldVal f + (if f = StatField.system then v else 0) := by
  cases f <;> simp [add_system, fieldVal]

theorem fieldVal_add_idle (s : CounterBundle) (v : Nat) (f : StatField) :
    (s.add_idle v).fieldVal f
      = s.fieldVal f + (if f = StatField.idle then v else 0) := by
  cases f <;> simp [add_idle, fieldVal]

theorem field_load (s : CounterBundle) (f : StatField) :
    (s.load).field f = s.fieldVal f := by
  cases f <;> rfl

end CounterBundle

namespace CpuStatManager

/-- Read one named counter of the per-CPU bundle at index `i`, with the
all-zero bundle as the out-of-range default. -/
def perCpuField (m : CpuStatManager) (i : Nat) (f : StatField) : Nat :=
  (m.per_cpu_stats.getD i CounterBundle.new).fieldVal f

/-- Read one named counter of the global bundle. -/
def globalField (m : CpuStatManager) (f : StatField) : Nat :=
  m.global_stats.fieldVal f

theorem inc_user_time_spec (m : CpuStatManager) (cpu val i : Nat)
    (f : StatField) :
    (m.inc_user_time cpu val).perCpuField i f
        = m.perCpuField i f
          + (if cpu < m.per_cpu_stats.length ∧ i = cpu ∧ f = StatField.user
             then val else 0)
      ∧ (m.inc_user_time cpu val).globalField f
        = m.globalField f
          + (if cpu < m.per_cpu_stats.length ∧ f = StatField.user
             then val else 0)
      ∧ (m.inc_user_time cpu val).per_cpu_stats.length
        = m.per_cpu_stats.length := by
  by_cases hcpu : cpu < m.per_cpu_stats.length
  · refine ⟨?_, ?_, ?_⟩
    · by_cases hi : i = cpu
      · subst hi
        simp only [inc_user_time, hcpu, if_true, perCpuField,
          getD_set_self _ _ _ _ hcpu, CounterBundle.fieldVal_add_user,
          hcpu, true_and]
      · simp only [inc_user_time, hcpu, if_true, perCpuField,
          getD_set_ne _ cpu i _ _ (fun hc => hi hc.symm), hcpu, true_and,
          hi, false_and, if_false, Nat.add_zero]
    · simp only [inc_user_time, hcpu, if_true, globalField,
        CounterBundle.fieldVal_add_user, hcpu, true_and]
    · simp [inc_user_time, hcpu, if_true]
  · simp [inc_user_time, if_neg hcpu, hcpu]

theorem inc_system_time_spec (m : CpuStatManager) (cpu val i : Nat)
    (f : StatField) :
    (m.inc_system_time cpu val).perCpuField i f
        = m.perCpuField i f
          + (if cpu < m.per_cpu_stats.length ∧ i = cpu ∧ f = StatField.system
             then val else 0)
      ∧ (m.inc_system_time cpu val).globalField f
        = m.globalField f
          + (if cpu < m.per_cpu_stats.length ∧ f = StatField.system
             then val else 0)
      ∧ (m.inc_system_time cpu val).per_cpu_stats.length
        = m.per_cpu_stats.length := by
  by_cases hcpu : cpu < m.per_cpu_stats.length
  · refine ⟨?_, ?_, ?_⟩
    · by_cases hi : i = cpu
      · subst hi
        simp only [inc_system_time, hcpu, if_true, perCpuField,
          getD_set_self _ _ _ _ hcpu, CounterBundle.fieldVal_add_system,
          hcpu, true_and]
      · simp only [inc_system_time, hcpu, if_true, perCpuField,
          getD_set_ne _ cpu i _ _ (fun hc => hi hc.symm), hcpu, true_and,
          hi, false_and, if_false, Nat.add_zero]
    · simp only [inc_system_time, hcpu, if_true, globalField,
        CounterBundle.fieldVal_add_system, hcpu, true_and]
    · simp [inc_system_time, hcpu, if_true]
  · simp [inc_system_time, if_neg hcpu, hcpu]

theorem inc_idle_time_spec (m : CpuStatManager) (cpu val i : Nat)
    (f : StatField) :
    (m.inc_idle_time cpu val).perCpuField i f
        = m.perCpuField i f
          + (if cpu < m.per_cpu_stats.length ∧ i = cpu ∧ f = StatField.idle
             then val else 0)
      ∧ (m.inc_idle_time cpu val).globalField f
        = m.globalField f
          + (if cpu < m.per_cpu_stats.length ∧ f = StatField.idle
             then val else 0)
      ∧ (m.inc_idle_time cpu val).per_cpu_stats.length
        = m.per_cpu_stats.length := by
  by_cases hcpu : cpu < m.per_cpu_stats.length
  · refine ⟨?_, ?_, ?_⟩
    · by_cases hi : i = cpu
      · subst hi
        simp only [inc_idle_time, hcpu, if_true, perCpuField,
          getD_set_self _ _ _ _ hcpu, CounterBundle.fieldVal_add_idle,
          hcpu, true_and]
      · simp only [inc_idle_time, hcpu, if_true, perCpuField,
          getD_set_ne _ cpu i _ _ (fun hc => hi hc.symm), hcpu, true_and,
          hi, false_and, if_false, Nat.add_zero]
    · simp only [inc_idle_time, hcpu, if_true, globalField,
        CounterBundle.fieldVal_add_idle, hcpu, true_and]
    · simp [inc_idle_time, hcpu, if_true]
  · simp [inc_idle_time, if_neg hcpu, hcpu]

end CpuStatManager

/-- The counter category a tick is classified into: idle-policy check
first, then system for a kernel-mode interruption, else user. -/
def catOf (is_kernel : Bool) (current_policy : Option SchedPolicy) :
    StatField :=
  if is_idle current_policy then StatField.idle
  else if is_kernel then StatField.system
  else StatField.user

theorem update_cpu_statistics_spec (m : CpuStatManager) (cpu i : Nat)
    (ik : Bool) (pol : Option SchedPolicy) (f : StatField) :
    (update_cpu_statistics m cpu ik pol).perCpuField i f
        = m.perCpuField i f
          + (if cpu < m.per_cpu_stats.length ∧ i = cpu ∧ f = catOf ik pol
             then 1 else 0)
      ∧ (update_cpu_statistics m cpu ik pol).globalField f
        = m.globalField f
          + (if cpu < m.per_cpu_stats.length ∧ f = catOf ik pol
             then 1 else 0)
      ∧ (update_cpu_statistics m cpu ik pol).per_cpu_stats.length
        = m.per_cpu_stats.length := by
  by_cases hidle : is_idle pol
  · simpa [update_cpu_statistics, catOf, hidle] using
      m.inc_idle_time_spec cpu 1 i f
  · by_cases hik : ik
    · simpa [update_cpu_statistics, catOf, hidle, hik] using
        m.inc_system_time_spec cpu 1 i f
    · simpa [update_cpu_statistics, catOf, hidle, hik] using
        m.inc_user_time_spec cpu 1 i f

/-- A run of `n` consecutive timer ticks, all delivered on the same CPU
with the same classification inputs and nothing interleaved: the callback
`update_cpu_statistics` applied `n` times. -/
def iterTicks : Nat → CpuStatManager → Nat → Bool → Option SchedPolicy →
    CpuStatManager
  | 0, m, _, _, _ => m
  | n + 1, m, cpu, ik, pol =>
      iterTicks n (update_cpu_statistics m cpu ik pol) cpu ik pol

theorem iterTicks_spec (n : Nat) (m : CpuStatManager) (cpu i : Nat)
    (ik : Bool) (pol : Option SchedPolicy) (f : StatField) :
    (iterTicks n m cpu ik pol).perCpuField i f
        = m.perCpuField i f
          + (if cpu < m.per_cpu_stats.length ∧ i = cpu ∧ f = catOf ik pol
             then n else 0)
      ∧ (iterTicks n m cpu ik pol).globalField f
        = m.globalField f
          + (if cpu < m.per_cpu_stats.length ∧ f = catOf ik pol
             then n else 0)
      ∧ (iterTicks n m cpu ik pol).per_cpu_stats.length
        = m.per_cpu_stats.length := by
  induction n generalizing m with
  | zero => simp [iterTicks]
  | succ k ih =>
    obtain ⟨hp, hg, hl⟩ := update_cpu_statistics_spec m cpu i ik pol f
    obtain ⟨ihp, ihg, ihl⟩ := ih (update_cpu_statistics m cpu ik pol)
    refine ⟨?_, ?_, ?_⟩
    · rw [iterTicks, ihp, hp, hl]
      by_cases hc : cpu < m.per_cpu_stats.length ∧ i = cpu ∧ f = catOf ik pol
      · simp [hc]
        omega
      · simp [hc]
    · rw [iterTicks, ihg, hg, hl]
      by_cases hc : cpu < m.per_cpu_stats.length ∧ f = catOf ik pol
      · simp [hc]
        omega
      · simp [hc]
    · rw [iterTicks, ihl, hl]

/-- The operations the accounting subsystem performs on the Stat Manager
after initialization: the three internal increments, a delivered timer
tick (the classifier), and the two snapshot reads (which leave the
counters untouched). -/
inductive StatOp where
  | incUser (cpu val : Nat)
  | incSystem (cpu val : Nat)
  | incIdle (cpu val : Nat)
  | tick (cpu : Nat) (is_kernel : Bool) (pol : Option SchedPolicy)
  | readOnCpu (cpu : Nat)
  | readGlobal
deriving DecidableEq, Repr

/-- Effect of one operation on the manager state. -/
def StatOp.apply (m : CpuStatManager) : StatOp → CpuStatManager
  | .incUser cpu val => m.inc_user_time cpu val
  | .incSystem cpu val => m.inc_system_time cpu val
  | .incIdle cpu val => m.inc_idle_time cpu val
  | .tick cpu ik pol => update_cpu_statistics m cpu ik pol
  | .readOnCpu _ => m
  | .readGlobal => m

/-- Effect of a sequence of operations, applied left to right. -/
def runOps (m : CpuStatManager) (ops : List StatOp) : CpuStatManager :=
  ops.foldl StatOp.apply m

theorem apply_mono (m : CpuStatManager) (op : StatOp) (i : Nat)
    (f : StatField) :
    m.perCpuField i f ≤ (op.apply m).perCpuField i f
      ∧ m.globalField f ≤ (op.apply m).globalField f
      ∧ (op.apply m).per_cpu_stats.length = m.per_cpu_stats.length := by
  cases op with
  | incUser cpu val =>
    simp only [StatOp.apply]
    obtain ⟨hp, hg, hl⟩ := m.inc_user_time_spec cpu val i f
    exact ⟨by omega, by omega, hl⟩
  | incSystem cpu val =>
    simp only [StatOp.apply]
    obtain ⟨hp, hg, hl⟩ := m.inc_system_time_spec cpu val i f
    exact ⟨by omega, by omega, hl⟩
  | incIdle cpu val =>
    simp only [StatOp.apply]
    obtain ⟨hp, hg, hl⟩ := m.inc_idle_time_spec cpu val i f
    exact ⟨by omega, by omega, hl⟩
  | tick cpu ik pol =>
    simp only [StatOp.apply]
    obtain ⟨hp, hg, hl⟩ := update_cpu_statistics_spec m cpu i ik pol f
    exact ⟨by omega, by omega, hl⟩
  | readOnCpu cpu => exact ⟨Nat.le_refl _, Nat.le_refl _, rfl⟩
  | readGlobal => exact ⟨Nat.le_refl _, Nat.le_refl _, rfl⟩

theorem runOps_mono (ops : List StatOp) (m : CpuStatManager) (i : Nat)
    (f : StatField) :
    m.perCpuField i f ≤ (runOps m ops).perCpuField i f
      ∧ m.globalField f ≤ (runOps m ops).globalField f
      ∧ (runOps m ops).per_cpu_stats.length = m.per_cpu_stats.length := by
  induction ops generalizing m with
  | nil => exact ⟨Nat.le_refl _, Nat.le_refl _, rfl⟩
  | cons op rest ih =>
    obtain ⟨h1, h2, h3⟩ := apply_mono m op i f
    obtain ⟨h4, h5, h6⟩ := ih (op.apply m)
    exact ⟨Nat.le_trans h1 h4, Nat.le_trans h2 h5, by rw [runOps] at h6 ⊢; simp [List.foldl] at h6 ⊢; omega⟩

/-- The seven counters the accounting layer never implements: everything
other than user, system and idle. -/
def placeholderField : StatField → Bool
  | .user => false
  | .system => false
  | .idle => false
  | _ => true

theorem catOf_not_placeholder (ik : Bool) (pol : Option SchedPolicy) :
    placeholderField (catOf ik pol) = false := by
  unfold catOf
  by_cases hidle : is_idle pol
  · simp [hidle, placeholderField]
  · by_cases hik : ik <;> simp [hidle, hik, placeholderField]

theorem apply_placeholder (m : CpuStatManager) (op : StatOp) (i : Nat)
    (f : StatField) (hf : placeholderField f = true) :
    (op.apply m).perCpuField i f = m.perCpuField i f
      ∧ (op.apply m).globalField f = m.globalField f := by
  have huser : f ≠ StatField.user := by
    intro h; subst h; simp [placeholderField] at hf
  have hsys : f ≠ StatField.system := by
    intro h; subst h; simp [placeholderField] at hf
  have hidl : f ≠ StatField.idle := by
    intro h; subst h; simp [placeholderField] at hf
  cases op with
  | incUser cpu val =>
    simp only [StatOp.apply]
    obtain ⟨hp, hg, _⟩ := m.inc_user_time_spec cpu val i f
    simp [hp, hg, huser]
  | incSystem cpu val =>
    simp only [StatOp.apply]
    obtain ⟨hp, hg, _⟩ := m.inc_system_time_spec cpu val i f
    simp [hp, hg, hsys]
  | incIdle cpu val =>
    simp only [StatOp.apply]
    obtain ⟨hp, hg, _⟩ := m.inc_idle_time_spec cpu val i f
    simp [hp, hg, hidl]
  | tick cpu ik pol =>
    simp only [StatOp.apply]
    obtain ⟨hp, hg, _⟩ := update_cpu_statistics_spec m cpu i ik pol f
    have hcat : f ≠ catOf ik pol := by
      intro h
      rw [h, catOf_not_placeholder] at hf
      exact Bool.false_ne_true hf
    simp [hp, hg, hcat]
  | readOnCpu cpu => exact ⟨rfl, rfl⟩
  | readGlobal => exact ⟨rfl, rfl⟩

theorem runOps_placeholder (ops : List StatOp) (m : CpuStatManager)
    (i : Nat) (f : StatField) (hf : placeholderField f = true) :
    (runOps m ops).perCpuField i f = m.perCpuField i f
      ∧ (runOps m ops).globalField f = m.globalField f := by
  induction ops generalizing m with
  | nil => exact ⟨rfl, rfl⟩
  | cons op rest ih =>
    obtain ⟨h1, h2⟩ := apply_placeholder m op i f hf
    obtain ⟨h3, h4⟩ := ih (op.apply m)
    refine ⟨?_, ?_⟩
    · show (runOps (op.apply m) rest).perCpuField i f = _
      rw [h3, h1]
    · show (runOps (op.apply m) rest).globalField f = _
      rw [h4, h2]

theorem getD_replicate (n i : Nat) {α : Type u} (a : α) :
    (List.replicate n a).getD i a = a := by
  induction n generalizing i with
  | zero => simp [List.replicate]
  | succ k ih =>
    cases i with
    | zero => simp [List.replicate]
    | succ j =>
      simp only [List.replicate, List.getD, List.get?]
      exact ih j

theorem new_perCpuField (n i : Nat) (f : StatField) :
    (CpuStatManager.new n).perCpuField i f = 0 := by
  have hb : CounterBundle.new.fieldVal f = 0 := by
    cases f <;> rfl
  simp only [CpuStatManager.new, CpuStatManager.perCpuField,
    getD_replicate, hb]

theorem new_globalField (n : Nat) (f : StatField) :
    (CpuStatManager.new n).globalField f = 0 := by
  cases f <;> rfl

/-- A registered timer callback. The only callback this subsystem ever
registers is `update_cpu_statistics`. -/
inductive TimerCallback where
  | updateCpuStatistics
deriving DecidableEq, Repr

/-- The initialization-relevant state of the subsystem: the `Once`-guarded
singleton `INSTANCE` and the timer's list of registered callbacks.
Modelled from the spec: `ostd::timer::register_callback` (outside the
shown sources) registers a callback with the timer-interrupt mechanism,
which invokes every registered callback once per tick; registration is
embedded as appending to the callback list. -/
structure TimeSubsystem where
  INSTANCE : Option CpuStatManager
  callbacks : List TimerCallback
deriving DecidableEq, Repr

/-- The state before `init` runs: `Once::new()` holds nothing and no
callback is registered. -/
def bootState : TimeSubsystem :=
  { INSTANCE := none, callbacks := [] }

/-- The `Once::call_once` guard on `INSTANCE`: the closure runs only when
the cell is still empty. -/
def callOnce (cur : Option CpuStatManager)
    (make : Unit → CpuStatManager) : Option CpuStatManager :=
  match cur with
  | some m => some m
  | none => some (make ())

/-- Modelled from the spec: `ostd::timer::register_callback(f)` adds `f`
to the callbacks the timer mechanism invokes on every tick. -/
def register_callback (cbs : List TimerCallback) (cb : TimerCallback) :
    List TimerCallback :=
  cbs ++ [cb]

/-- The `init()` entry point of `cpu_stat.rs`: `INSTANCE.call_once`
constructs the manager from the CPU count (a collaborator value, here a
parameter), and then — unconditionally, outside the `call_once` guard —
`register_callback(update_cpu_statistics)` runs. -/
def init (s : TimeSubsystem) (num_cpus : Nat) : TimeSubsystem :=
  { INSTANCE := callOnce s.INSTANCE (fun _ => CpuStatManager.new num_cpus)
    callbacks := register_callback s.callbacks .updateCpuStatistics }

/-- Run one registered callback for a tick with the given classification
inputs. -/
def runCallback (cpu : Nat) (ik : Bool) (pol : Option SchedPolicy)
    (m : CpuStatManager) : TimerCallback → CpuStatManager
  | .updateCpuStatistics => update_cpu_statistics m cpu ik pol

/-- One delivered timer tick: the timer mechanism invokes every
registered callback in order. (With no manager the real callback would
panic in `CpuStatManager::get`; ticks cannot fire before `init` in the
boot sequence, and the map leaves the empty state unchanged.) -/
def timerTick (s : TimeSubsystem) (cpu : Nat) (ik : Bool)
    (pol : Option SchedPolicy) : TimeSubsystem :=
  { s with
    INSTANCE :=
      s.INSTANCE.map (fun m =>
        s.callbacks.foldl (fun acc cb => runCallback cpu ik pol acc cb) m) }

/-- Global idle jiffies observed after one tick, the observable C3 talks
about. -/
def idleAfterOneTick (s : TimeSubsystem) : Option Nat :=
  (timerTick s 0 false (some SchedPolicy.idle)).INSTANCE.map
    (fun m => (m.get_global).idle)

/-- Fuel-driven digit extraction, least significant digit pushed first
onto the accumulator; `fuel ≥ n` always suffices. -/
def natDigitsCore : Nat → Nat → List Char → List Char
  | 0, n, acc => Nat.digitChar n :: acc
  | fuel + 1, n, acc =>
    if n < 10 then Nat.digitChar n :: acc
    else natDigitsCore fuel (n / 10) (Nat.digitChar (n % 10) :: acc)

/-- Decimal digit list of a natural number, most significant first: the
rendering Rust's `Display` for unsigned integers produces inside the
`format!` calls of the two exposition files. -/
def natDigitsList (n : Nat) : List Char :=
  natDigitsCore n n []

/-- Decimal rendering of a counter value, as `format!("{}", v)` emits. -/
def natRepr (n : Nat) : String :=
  ⟨natDigitsList n⟩

/-- The `/proc/stat` producer `StatFileOps::collect_stats`. Collaborator
reads become parameters: `cpu_count` is `num_cpus()`, `global_stats` is
`cpu_manager.get_global()`, `on_cpu i` is `cpu_manager.get_on_cpu(i)`,
`boot_time?` is the optional `START_TIME` converted to whole seconds,
`total_forks` and `running_count` come from the process and scheduler
collaborators. The body follows the Rust `push_str` sequence. -/
def collect_stats (cpu_count : Nat) (global_stats : Cpustat)
    (on_cpu : Nat → Cpustat) (boot_time? : Option Nat)
    (total_forks running_count : Nat) : String :=
  let output := ""
  let output := output ++
    ("cpu " ++ natRepr global_stats.user ++ " " ++ natRepr global_stats.nice
      ++ " " ++ natRepr global_stats.system ++ " " ++ natRepr global_stats.idle
      ++ " " ++ natRepr global_stats.iowait ++ " " ++ natRepr global_stats.irq
      ++ " " ++ natRepr global_stats.softirq ++ " " ++ natRepr global_stats.steal
      ++ " " ++ natRepr global_stats.guest ++ " "
      ++ natRepr global_stats.guest_nice ++ "\n")
  let output := (List.range cpu_count).foldl (fun out cpu_id =>
    let cpu_stats := on_cpu cpu_id
    out ++
      ("cpu" ++ natRepr cpu_id ++ " " ++ natRepr cpu_stats.user ++ " "
        ++ natRepr cpu_stats.nice ++ " " ++ natRepr cpu_stats.system ++ " "
        ++ natRepr cpu_stats.idle ++ " " ++ natRepr cpu_stats.iowait ++ " "
        ++ natRepr cpu_stats.irq ++ " " ++ natRepr cpu_stats.softirq ++ " "
        ++ natRepr cpu_stats.steal ++ " " ++ natRepr cpu_stats.guest ++ " "
        ++ natRepr cpu_stats.guest_nice ++ "\n")) output
  let output := output ++ "intr 0\n"
  let output := output ++ "ctxt 0\n"
  let output :=
    match boot_time? with
    | some boot_time => output ++ ("btime " ++ natRepr boot_time ++ "\n")
    | none => output ++ "btime 0\n"
  let output := output ++ ("processes " ++ natRepr total_forks ++ "\n")
  let output := output ++ ("procs_running " ++ natRepr running_count ++ "\n")
  let output := output ++ "procs_blocked 0\n"
  let output := output ++ "softirq 0 0 0 0 0 0 0 0 0 0 0\n"
  output

/-- The ten values of a snapshot in the order the specification names
them: user, nice, system, idle, iowait, irq, softirq, steal, guest,
guest_nice. Spec-side definition for the refinement statement. -/
def tenFieldsOf (s : Cpustat) : List Nat :=
  [s.user, s.nice, s.system, s.idle, s.iowait, s.irq, s.softirq, s.steal,
    s.guest, s.guest_nice]

/-- Spec-side rendering of one CPU line: the tag followed by the ten
fields, space-separated. -/
def fieldsLine (tag : String) (s : Cpustat) : String :=
  tag ++ String.join ((tenFieldsOf s).map (fun v => " " ++ natRepr v))

/-- Spec-side boot-time line: `btime <seconds>`, and the literal
`btime 0` when no boot time is recorded. -/
def btimeLine (boot_time? : Option Nat) : String :=
  match boot_time? with
  | some secs => "btime " ++ natRepr secs
  | none => "btime 0"

/-- Spec-side line list of `/proc/stat`: one global `cpu` line, one
`cpuN` line per CPU for N ascending from 0, then the fixed trailer
lines. -/
def statLinesSpec (cpu_count : Nat) (global_stats : Cpustat)
    (on_cpu : Nat → Cpustat) (boot_time? : Option Nat)
    (total_forks running_count : Nat) : List String :=
  fieldsLine "cpu" global_stats
    :: ((List.range cpu_count).map (fun i =>
          fieldsLine ("cpu" ++ natRepr i) (on_cpu i))
        ++ ["intr 0", "ctxt 0", btimeLine boot_time?,
            "processes " ++ natRepr total_forks,
            "procs_running " ++ natRepr running_count,
            "procs_blocked 0",
            "softirq 0 0 0 0 0 0 0 0 0 0 0"])

/-- Spec-side `/proc/stat` text: every line newline-terminated, in
order. -/
def statOutputSpec (cpu_count : Nat) (global_stats : Cpustat)
    (on_cpu : Nat → Cpustat) (boot_time? : Option Nat)
    (total_forks running_count : Nat) : String :=
  String.join ((statLinesSpec cpu_count global_stats on_cpu boot_time?
    total_forks running_count).map (fun l => l ++ "\n"))

/-- Two-decimal seconds formatting. Modelled from the spec: the source
converts a duration to `f32` seconds and prints it with `{:.2}`; the
embedding carries the duration as exact nanoseconds and rounds to
centiseconds, so `f32` representation error is abstracted away. -/
def pad2 (n : Nat) : String :=
  if n < 10 then "0" ++ natRepr n else natRepr n

/-- Render nanoseconds as seconds with exactly two decimal digits. -/
def formatSecs2 (nanos : Nat) : String :=
  natRepr ((nanos + 5000000) / 10000000 / 100) ++ "."
    ++ pad2 ((nanos + 5000000) / 10000000 % 100)

/-- The `/proc/uptime` producer `UptimeFileOps::collect_uptime`:
monotonic uptime then global idle time, two decimals each, separated by
two spaces, no trailing newline. Both durations are parameters in
nanoseconds: `read_monotonic_time()` and
`get_global().idle.as_duration()`. -/
def collect_uptime (uptime_nanos idle_nanos : Nat) : String :=
  formatSecs2 uptime_nanos ++ "  " ++ formatSecs2 idle_nanos

/-- Modelled from the spec: the timer fires at a fixed collaborator-
defined frequency; a representative 100 Hz is used, so one jiffy is
10^7 nanoseconds (`Jiffies::as_duration` is outside the shown
sources). -/
def TIMER_FREQ : Nat := 100

/-- Duration of a jiffies count in nanoseconds at `TIMER_FREQ`. -/
def jiffiesToNanos (j : Nat) : Nat :=
  j * (1000000000 / TIMER_FREQ)

/-- Split a character list into its longest digit-run head and the
rest. -/
def splitDigits : List Char → List Char × List Char
  | [] => ([], [])
  | c :: cs =>
    if c.isDigit then
      match splitDigits cs with
      | (ds, r) => (c :: ds, r)
    else ([], c :: cs)

/-- Check the tail of the pattern: a dot, exactly two digits, end of
input. -/
def checkEnd : List Char → Bool
  | ['.', c, d] => c.isDigit && d.isDigit
  | _ => false

/-- Check the second number of the pattern: one or more digits, then a
dot and exactly two digits ending the input. -/
def checkSecond (cs : List Char) : Bool :=
  !(splitDigits cs).1.isEmpty && checkEnd (splitDigits cs).2

/-- Check what follows the first digit run: a dot, exactly two digits,
exactly two spaces, then the second number. -/
def checkAfterDot : List Char → Bool
  | '.' :: a :: b :: ' ' :: ' ' :: rest2 =>
      a.isDigit && b.isDigit && checkSecond rest2
  | _ => false

/-- Decide whether a character list matches the documented uptime shape:
one or more digits, a dot, exactly two digits, exactly two spaces, one
or more digits, a dot, exactly two digits, end. -/
def uptimePatternData (cs : List Char) : Bool :=
  !(splitDigits cs).1.isEmpty && checkAfterDot (splitDigits cs).2

/-- The uptime shape check on a string's characters. -/
def uptimePattern (s : String) : Bool :=
  uptimePatternData s.data

example : uptimePattern "0.01  0.02" = true := by decide

example : uptimePattern "12.34  5.00" = true := by decide

example : uptimePattern "12.345  5.00" = false := by decide

example : collect_uptime 10000000 20000000 = "0.01  0.02" := by decide

theorem data_foldl_lines (g : Nat → String) (l : List Nat) (out : String) :
    (l.foldl (fun acc i => acc ++ g i) out).data
      = out.data ++ (l.map (fun i => (g i).data)).flatten := by
  induction l generalizing out with
  | nil => simp
  | cons a as ih =>
    simp only [List.foldl, List.map, List.flatten]
    rw [ih]
    simp

theorem digitChar_isDigit (d : Nat) (h : d < 10) :
    (Nat.digitChar d).isDigit = true := by
  have h10 : ∀ x : Fin 10, (Nat.digitChar x.1).isDigit = true := by decide
  exact h10 ⟨d, h⟩

theorem natDigitsCore_spec (fuel : Nat) :
    ∀ n acc, n ≤ fuel →
      ∃ ds, natDigitsCore fuel n acc = ds ++ acc ∧ ds ≠ []
        ∧ ∀ c ∈ ds, c.isDigit = true := by
  induction fuel with
  | zero =>
    intro n acc h
    refine ⟨[Nat.digitChar n], rfl, by simp, ?_⟩
    intro c hc
    simp at hc
    subst hc
    exact digitChar_isDigit n (by omega)
  | succ f ih =>
    intro n acc h
    by_cases hn : n < 10
    · refine ⟨[Nat.digitChar n], by simp [natDigitsCore, hn], by simp, ?_⟩
      intro c hc
      simp at hc
      subst hc
      exact digitChar_isDigit n hn
    · have hlt : n / 10 < n := Nat.div_lt_self (by omega) (by omega)
      obtain ⟨ds, hds, hne, hdig⟩ :=
        ih (n / 10) (Nat.digitChar (n % 10) :: acc) (by omega)
      refine ⟨ds ++ [Nat.digitChar (n % 10)], ?_, by simp, ?_⟩
      · simp [natDigitsCore, hn, hds]
      · intro c hc
        simp at hc
        rcases hc with hc | hc
        · exact hdig c hc
        · subst hc
          exact digitChar_isDigit _ (Nat.mod_lt _ (by omega))

theorem natDigitsList_spec (n : Nat) :
    natDigitsList n ≠ [] ∧ ∀ c ∈ natDigitsList n, c.isDigit = true := by
  obtain ⟨ds, hds, hne, hdig⟩ :=
    natDigitsCore_spec n n [] (Nat.le_refl n)
  rw [natDigitsList, hds, List.append_nil]
  exact ⟨hne, hdig⟩

theorem natDigitsCore_small (fuel q : Nat) (acc : List Char) (hq : q < 10) :
    natDigitsCore fuel q acc = Nat.digitChar q :: acc := by
  cases fuel with
  | zero => rfl
  | succ f => simp [natDigitsCore, hq]

theorem natDigitsList_lt10 (n : Nat) (h : n < 10) :
    natDigitsList n = [Nat.digitChar n] :=
  natDigitsCore_small n n [] h

theorem natDigitsList_two (n : Nat) (h10 : 10 ≤ n) (h : n < 100) :
    natDigitsList n = [Nat.digitChar (n / 10), Nat.digitChar (n % 10)] := by
  obtain ⟨m, rfl⟩ : ∃ m, n = m + 1 := ⟨n - 1, by omega⟩
  have hn : ¬(m + 1 < 10) := by omega
  have hq : (m + 1) / 10 < 10 := by omega
  rw [natDigitsList]
  simp only [natDigitsCore, hn, if_false]
  exact natDigitsCore_small m ((m + 1) / 10) _ hq

theorem pad2_shape (n : Nat) (h : n < 100) :
    ∃ a b, (pad2 n).data = [a, b] ∧ a.isDigit = true ∧ b.isDigit = true := by
  by_cases hn : n < 10
  · refine ⟨'0', Nat.digitChar n, ?_, by decide, digitChar_isDigit n hn⟩
    simp [pad2, hn, natRepr, natDigitsList_lt10 n hn]
  · refine ⟨Nat.digitChar (n / 10), Nat.digitChar (n % 10), ?_,
      digitChar_isDigit _ (by omega), digitChar_isDigit _ (by omega)⟩
    simp [pad2, hn, natRepr, natDigitsList_two n (by omega) h]

theorem splitDigits_append (ds r : List Char)
    (hds : ∀ c ∈ ds, c.isDigit = true)
    (hr : ∀ c cs, r = c :: cs → c.isDigit = false) :
    splitDigits (ds ++ r) = (ds, r) := by
  induction ds with
  | nil =>
    cases r with
    | nil => rfl
    | cons c cs => simp [splitDigits, hr c cs rfl]
  | cons c cs ih =>
    have hc : c.isDigit = true := hds c (by simp)
    simp [splitDigits, hc, ih (fun x hx => hds x (by simp [hx]))]

theorem notEmpty_of_ne_nil (l : List Char) (h : l ≠ []) :
    l.isEmpty = false := by
  cases l with
  | nil => exact absurd rfl h
  | cons a as => rfl

theorem natRepr_data (n : Nat) : (natRepr n).data = natDigitsList n := rfl

theorem get?_isSome_of_lt {α : Type u} (l : List α) (i : Nat)
    (h : i < l.length) : (l.get? i).isSome = true := by
  induction l generalizing i with
  | nil => simp at h
  | cons a as ih =>
    cases i with
    | zero => rfl
    | succ j => simpa using ih j (by simpa using h)

theorem getElem?_isSome_of_lt {α : Type u} (l : List α) (i : Nat)
    (h : i < l.length) : l[i]?.isSome = true := by
  rw [← List.get?_eq_getElem?]
  exact get?_isSome_of_lt l i h

theorem getD_of_get?_some {α : Type u} (l : List α) (i : Nat) (x d : α)
    (h : l.get? i = some x) : l.getD i d = x := by
  rw [List.get?_eq_getElem?] at h
  simp [List.getD, h]

theorem uptimePattern_parts (q1 r1 q2 r2 : Nat) (h1 : r1 < 100)
    (h2 : r2 < 100) :
    uptimePattern (natRepr q1 ++ "." ++ pad2 r1 ++ "  "
      ++ (natRepr q2 ++ "." ++ pad2 r2)) = true := by
  obtain ⟨a, b, hab, ha, hb⟩ := pad2_shape r1 h1
  obtain ⟨c, d, hcd, hc, hd⟩ := pad2_shape r2 h2
  obtain ⟨hne1, hdig1⟩ := natDigitsList_spec q1
  obtain ⟨hne2, hdig2⟩ := natDigitsList_spec q2
  have hdot : ∀ c0 cs0,
      ('.' :: a :: b :: ' ' :: ' '
          :: (natDigitsList q2 ++ ['.', c, d]))
        = c0 :: cs0 → c0.isDigit = false := by
    intro c0 cs0 h0
    injection h0 with h1 _
    rw [← h1]
    rfl
  have hdot2 : ∀ c0 cs0, (['.', c, d] : List Char) = c0 :: cs0 →
      c0.isDigit = false := by
    intro c0 cs0 h0
    injection h0 with h1 _
    rw [← h1]
    rfl
  have hdata : (natRepr q1 ++ "." ++ pad2 r1 ++ "  "
        ++ (natRepr q2 ++ "." ++ pad2 r2)).data
      = natDigitsList q1
        ++ ('.' :: a :: b :: ' ' :: ' '
            :: (natDigitsList q2 ++ ['.', c, d])) := by
    simp [natRepr_data, hab, hcd]
  simp only [uptimePattern, uptimePatternData]
  rw [hdata, splitDigits_append _ _ hdig1 hdot]
  simp only [checkAfterDot, checkSecond,
    splitDigits_append _ _ hdig2 hdot2, checkEnd]
  simp [ha, hb, hc, hd, notEmpty_of_ne_nil _ hne1, notEmpty_of_ne_nil _ hne2]

/-- Claim C1: N consecutive timer ticks classified to the same
(cpu, category) pair, with cpu in range and nothing interleaved,
increase the per-CPU counter of that category and the global counter of
that category by exactly N, and leave every other counter of every
bundle unchanged (the `if` yields 0 whenever the bundle index or the
field differs). -/
theorem consecutive_ticks_increment_exactly (m : CpuStatManager)
    (cpu : Nat) (ik : Bool) (pol : Option SchedPolicy) (n i : Nat)
    (f : StatField) (h : cpu < m.per_cpu_stats.length) :
    (iterTicks n m cpu ik pol).perCpuField i f
        = m.perCpuField i f + (if i = cpu ∧ f = catOf ik pol then n else 0)
      ∧ (iterTicks n m cpu ik pol).globalField f
        = m.globalField f + (if f = catOf ik pol then n else 0) := by
  obtain ⟨hp, hg, _⟩ := iterTicks_spec n m cpu i ik pol f
  constructor
  · rw [hp]
    simp [h]
  · rw [hg]
    simp [h]

/-- Witness for C1: the end-to-end scenario numbers — 100 idle ticks on
CPU 0 of a fresh two-CPU manager put the idle counters at exactly 100. -/
theorem consecutive_ticks_increment_exactly_witness :
    (iterTicks 100 (CpuStatManager.new 2) 0 false
        (some SchedPolicy.idle)).perCpuField 0 StatField.idle
        = (CpuStatManager.new 2).perCpuField 0 StatField.idle
          + (if 0 = 0 ∧ StatField.idle = catOf false (some SchedPolicy.idle)
             then 100 else 0)
      ∧ (iterTicks 100 (CpuStatManager.new 2) 0 false
          (some SchedPolicy.idle)).globalField StatField.idle
        = (CpuStatManager.new 2).globalField StatField.idle
          + (if StatField.idle = catOf false (some SchedPolicy.idle)
             then 100 else 0) :=
  consecutive_ticks_increment_exactly (CpuStatManager.new 2) 0 false
    (some SchedPolicy.idle) 100 0 StatField.idle (by decide)

/-- Claim C2: if the current thread's policy is idle the tick is exactly
an idle increment — no non-idle counter of any bundle moves, whatever
the privilege level was — and otherwise the tick increments system when
the interrupted context was kernel-mode, else user. -/
theorem tick_idle_policy_priority (m : CpuStatManager) (cpu i : Nat)
    (ik : Bool) (pol : Option SchedPolicy) (f : StatField) :
    (is_idle pol = true →
        update_cpu_statistics m cpu ik pol = m.inc_idle_time cpu 1)
      ∧ (is_idle pol = true → f ≠ StatField.idle →
          (update_cpu_statistics m cpu ik pol).perCpuField i f
              = m.perCpuField i f
            ∧ (update_cpu_statistics m cpu ik pol).globalField f
              = m.globalField f)
      ∧ (is_idle pol = false → ik = true →
          update_cpu_statistics m cpu ik pol = m.inc_system_time cpu 1)
      ∧ (is_idle pol = false → ik = false →
          update_cpu_statistics m cpu ik pol = m.inc_user_time cpu 1) := by
  refine ⟨?_, ?_, ?_, ?_⟩
  · intro h
    simp [update_cpu_statistics, h]
  · intro h hf
    obtain ⟨hp, hg, _⟩ := update_cpu_statistics_spec m cpu i ik pol f
    have hcat : catOf ik pol = StatField.idle := by simp [catOf, h]
    rw [hcat] at hp hg
    constructor
    · rw [hp]
      simp [hf]
    · rw [hg]
      simp [hf]
  · intro h hik
    simp [update_cpu_statistics, h, hik]
  · intro h hik
    simp [update_cpu_statistics, h, hik]

/-- Witness for C2: concrete kernel-mode tick under the idle policy on a
fresh one-CPU manager, checked at the user field of bundle 0. -/
theorem tick_idle_policy_priority_witness :
    (is_idle (some SchedPolicy.idle) = true →
        update_cpu_statistics (CpuStatManager.new 1) 0 true
            (some SchedPolicy.idle)
          = (CpuStatManager.new 1).inc_idle_time 0 1)
      ∧ (is_idle (some SchedPolicy.idle) = true →
          StatField.user ≠ StatField.idle →
          (update_cpu_statistics (CpuStatManager.new 1) 0 true
              (some SchedPolicy.idle)).perCpuField 0 StatField.user
              = (CpuStatManager.new 1).perCpuField 0 StatField.user
            ∧ (update_cpu_statistics (CpuStatManager.new 1) 0 true
                (some SchedPolicy.idle)).globalField StatField.user
              = (CpuStatManager.new 1).globalField StatField.user)
      ∧ (is_idle (some SchedPolicy.idle) = false → true = true →
          update_cpu_statistics (CpuStatManager.new 1) 0 true
              (some SchedPolicy.idle)
            = (CpuStatManager.new 1).inc_system_time 0 1)
      ∧ (is_idle (some SchedPolicy.idle) = false → true = false →
          update_cpu_statistics (CpuStatManager.new 1) 0 true
              (some SchedPolicy.idle)
            = (CpuStatManager.new 1).inc_user_time 0 1) :=
  tick_idle_policy_priority (CpuStatManager.new 1) 0 0 true
    (some SchedPolicy.idle) StatField.user

/-- Claim C3, counterexample: after two completed `init` calls the timer
callback is registered twice, so one tick adds 2 to the idle counters,
while after a single `init` the same tick adds 1 — the observable
behaviour is not the same as if `init` had been called exactly once. -/
theorem double_init_changes_tick_behaviour :
    idleAfterOneTick (init (init bootState 2) 2)
      ≠ idleAfterOneTick (init bootState 2) := by
  decide

/-- Claim C3 as amended: a second `init` call never re-creates or resets
the Stat Manager state — the existing manager instance, with all its
counters, survives unchanged — but it does register the timer callback
again, so the per-tick increment count grows with each `init` call
instead of staying as after a single `init`. -/
theorem init_repeated_preserves_state_but_reregisters
    (s : TimeSubsystem) (num_cpus : Nat) (m : CpuStatManager)
    (h : s.INSTANCE = some m) :
    (init s num_cpus).INSTANCE = some m
      ∧ (init s num_cpus).callbacks
        = s.callbacks ++ [TimerCallback.updateCpuStatistics] := by
  simp [init, callOnce, h, register_callback]

/-- Witness for the amended C3: a concrete already-initialized state. -/
theorem init_repeated_preserves_state_but_reregisters_witness :
    (init (init bootState 2) 2).INSTANCE = some (CpuStatManager.new 2)
      ∧ (init (init bootState 2) 2).callbacks
        = (init bootState 2).callbacks
          ++ [TimerCallback.updateCpuStatistics] :=
  init_repeated_preserves_state_but_reregisters (init bootState 2) 2
    (CpuStatManager.new 2) (by decide)

/-- Claim C4: with an out-of-range CPU id every increment operation is a
silent no-op — the manager, hence every counter of every bundle, is
returned unchanged, for any tick amount. -/
theorem out_of_range_increment_noop (m : CpuStatManager) (cpu val : Nat)
    (h : m.per_cpu_stats.length ≤ cpu) :
    m.inc_user_time cpu val = m
      ∧ m.inc_system_time cpu val = m
      ∧ m.inc_idle_time cpu val = m := by
  have h' : ¬cpu < m.per_cpu_stats.length := by omega
  exact ⟨by simp [CpuStatManager.inc_user_time, h'],
    by simp [CpuStatManager.inc_system_time, h'],
    by simp [CpuStatManager.inc_idle_time, h']⟩

/-- Witness for C4: CPU id 5 on a two-CPU manager. -/
theorem out_of_range_increment_noop_witness :
    (CpuStatManager.new 2).inc_user_time 5 7 = CpuStatManager.new 2
      ∧ (CpuStatManager.new 2).inc_system_time 5 7 = CpuStatManager.new 2
      ∧ (CpuStatManager.new 2).inc_idle_time 5 7 = CpuStatManager.new 2 :=
  out_of_range_increment_noop (CpuStatManager.new 2) 5 7 (by decide)

/-- Claim C5: for an in-range CPU id the read path cannot hit the
panicking out-of-bounds index, before or after any interleaved sequence
of increments and ticks (`get_on_cpu` returns `none` exactly where the
Rust index would panic), and `get_global` always returns the snapshot of
the global bundle. -/
theorem read_path_never_panics (m : CpuStatManager) (cpu : Nat)
    (ops : List StatOp) (h : cpu < m.per_cpu_stats.length) :
    (m.get_on_cpu cpu).isSome = true
      ∧ ((runOps m ops).get_on_cpu cpu).isSome = true
      ∧ (runOps m ops).get_global
        = (runOps m ops).global_stats.load := by
  have hlen := (runOps_mono ops m 0 StatField.user).2.2
  refine ⟨?_, ?_, rfl⟩
  · simp [CpuStatManager.get_on_cpu, Option.isSome_map,
      getElem?_isSome_of_lt _ _ h]
  · simp [CpuStatManager.get_on_cpu, Option.isSome_map,
      getElem?_isSome_of_lt _ _
        (show cpu < (runOps m ops).per_cpu_stats.length by omega)]

/-- Witness for C5: CPU 1 of a two-CPU manager, with a tick and an
out-of-range increment interleaved. -/
theorem read_path_never_panics_witness :
    ((CpuStatManager.new 2).get_on_cpu 1).isSome = true
      ∧ ((runOps (CpuStatManager.new 2)
          [StatOp.tick 0 true none, StatOp.incUser 9 3]).get_on_cpu 1).isSome
        = true
      ∧ (runOps (CpuStatManager.new 2)
            [StatOp.tick 0 true none, StatOp.incUser 9 3]).get_global
        = (runOps (CpuStatManager.new 2)
            [StatOp.tick 0 true none, StatOp.incUser 9 3]).global_stats.load :=
  read_path_never_panics (CpuStatManager.new 2) 1
    [StatOp.tick 0 true none, StatOp.incUser 9 3] (by decide)

/-- Claim C8: no operation of the subsystem — increment with any
arguments, tick, or snapshot read — ever decreases any per-CPU or global
counter: over any operation sequence every counter is non-decreasing. -/
theorem counters_monotone (m : CpuStatManager) (ops : List StatOp)
    (i : Nat) (f : StatField) :
    m.perCpuField i f ≤ (runOps m ops).perCpuField i f
      ∧ m.globalField f ≤ (runOps m ops).globalField f :=
  ⟨(runOps_mono ops m i f).1, (runOps_mono ops m i f).2.1⟩

/-- Claim C9: in every snapshot obtainable from a freshly initialized
manager after any operation sequence, the placeholder counters (nice,
iowait, irq, softirq, steal, guest, guest_nice) are zero, per CPU and
globally. -/
theorem placeholder_counters_always_zero (num_cpus : Nat)
    (ops : List StatOp) (i : Nat) (f : StatField) (s : Cpustat)
    (hf : placeholderField f = true)
    (hs : (runOps (CpuStatManager.new num_cpus) ops).get_on_cpu i = some s) :
    s.field f = 0
      ∧ ((runOps (CpuStatManager.new num_cpus) ops).get_global).field f
        = 0 := by
  obtain ⟨hp, hg⟩ := runOps_placeholder ops (CpuStatManager.new num_cpus) i f hf
  constructor
  · obtain ⟨x, hx, rfl⟩ :
        ∃ x, (runOps (CpuStatManager.new num_cpus) ops).per_cpu_stats.get? i
            = some x ∧ s = x.load := by
      unfold CpuStatManager.get_on_cpu at hs
      cases hget : (runOps (CpuStatManager.new num_cpus) ops).per_cpu_stats.get? i with
      | none => rw [hget] at hs; simp at hs
      | some y =>
        rw [hget] at hs
        simp at hs
        exact ⟨y, rfl, hs.symm⟩
    rw [CounterBundle.field_load]
    have := getD_of_get?_some _ i x CounterBundle.new hx
    rw [CpuStatManager.perCpuField, this] at hp
    rw [hp, new_perCpuField]
  · rw [CpuStatManager.get_global, CounterBundle.field_load]
    rw [CpuStatManager.globalField] at hg
    rw [hg]
    have := new_globalField num_cpus f
    rw [CpuStatManager.globalField] at this
    exact this

/-- Witness for C9: the nice counter of CPU 0 after a burst of ticks and
increments on a two-CPU manager. -/
theorem placeholder_counters_always_zero_witness :
    ((⟨1, 0, 0, 0, 0, 0, 0, 0, 0, 0⟩ : Cpustat).field StatField.nice = 0
        ∧ ((runOps (CpuStatManager.new 2)
            [StatOp.tick 0 false none, StatOp.incIdle 1 4]).get_global).field
            StatField.nice = 0) :=
  placeholder_counters_always_zero 2
    [StatOp.tick 0 false none, StatOp.incIdle 1 4] 0 StatField.nice
    ⟨1, 0, 0, 0, 0, 0, 0, 0, 0, 0⟩ (by decide) (by decide)

/-- Claim C10: with no current thread the classifier reports non-idle,
so the tick increments system when the interrupted context was
kernel-mode, else user, and the idle counters never move. -/
theorem no_thread_tick_is_nonidle (m : CpuStatManager) (cpu i : Nat)
    (ik : Bool) :
    is_idle none = false
      ∧ update_cpu_statistics m cpu ik none
        = (if ik then m.inc_system_time cpu 1 else m.inc_user_time cpu 1)
      ∧ (update_cpu_statistics m cpu ik none).perCpuField i StatField.idle
        = m.perCpuField i StatField.idle
      ∧ (update_cpu_statistics m cpu ik none).globalField StatField.idle
        = m.globalField StatField.idle := by
  have hcat : catOf ik none ≠ StatField.idle := by
    cases ik <;> simp [catOf, is_idle]
  obtain ⟨hp, hg, _⟩ := update_cpu_statistics_spec m cpu i ik none StatField.idle
  refine ⟨rfl, ?_, ?_, ?_⟩
  · cases ik <;> simp [update_cpu_statistics, is_idle]
  · rw [hp]
    have hfalse :
        ¬(cpu < m.per_cpu_stats.length ∧ i = cpu
            ∧ StatField.idle = catOf ik none) := by
      rintro ⟨-, -, hx⟩
      exact hcat hx.symm
    simp [hfalse]
  · rw [hg]
    have hfalse :
        ¬(cpu < m.per_cpu_stats.length ∧ StatField.idle = catOf ik none) := by
      rintro ⟨-, hx⟩
      exact hcat hx.symm
    simp [hfalse]

/-- Claim C6: the `/proc/stat` text is exactly the documented line
sequence — the global `cpu` line with the ten fields, one `cpuN` line
per CPU ascending from 0, then `intr 0`, `ctxt 0`, the boot-time line
(literal `btime 0` when no boot time is recorded), `processes`,
`procs_running`, `procs_blocked 0` and the zeroed `softirq` line — every
line space-separated and newline-terminated. -/
theorem stat_output_layout (cpu_count : Nat) (global_stats : Cpustat)
    (on_cpu : Nat → Cpustat) (boot_time? : Option Nat)
    (total_forks running_count : Nat) :
    collect_stats cpu_count global_stats on_cpu boot_time? total_forks
        running_count
      = statOutputSpec cpu_count global_stats on_cpu boot_time? total_forks
        running_count := by
  apply String.ext
  cases boot_time? with
  | none =>
    simp [collect_stats, statOutputSpec, statLinesSpec, fieldsLine,
      btimeLine, tenFieldsOf, data_foldl_lines, List.append_assoc,
      Function.comp]
    congr 1
    apply List.map_congr_left
    intro i _
    simp [Function.comp, fieldsLine, tenFieldsOf, List.append_assoc]
  | some t =>
    simp [collect_stats, statOutputSpec, statLinesSpec, fieldsLine,
      btimeLine, tenFieldsOf, data_foldl_lines, List.append_assoc,
      Function.comp]
    congr 1
    apply List.map_congr_left
    intro i _
    simp [Function.comp, fieldsLine, tenFieldsOf, List.append_assoc]

/-- Claim C7, counterexample: boot a two-CPU manager, let one tick
period elapse with both CPUs idle (each CPU's timer classifies its tick
as idle). Uptime is then 1 jiffy but the global idle counter holds 2
jiffies, so `/proc/uptime` reads `0.01  0.02` — the idle seconds exceed
the uptime seconds, refuting idle ≤ uptime. -/
theorem uptime_idle_exceeds_uptime :
    collect_uptime (jiffiesToNanos 1)
        (jiffiesToNanos
          (((runOps (CpuStatManager.new 2)
              [StatOp.tick 0 true (some SchedPolicy.idle),
                StatOp.tick 1 true (some SchedPolicy.idle)]).get_global).idle))
      = "0.01  0.02"
      ∧ jiffiesToNanos 1
        < jiffiesToNanos
            (((runOps (CpuStatManager.new 2)
                [StatOp.tick 0 true (some SchedPolicy.idle),
                  StatOp.tick 1 true (some SchedPolicy.idle)]).get_global).idle) := by
  constructor
  · decide
  · decide

/-- Claim C7 as amended: the `/proc/uptime` text always matches
`^\d+\.\d{2}  \d+\.\d{2}$` — uptime then idle, each with exactly two
decimal digits, separated by exactly two spaces, nothing after — but the
idle-seconds value may exceed the uptime-seconds value, since the global
idle counter aggregates idle ticks across all CPUs. -/
theorem uptime_format_pattern (u i : Nat) :
    uptimePattern (collect_uptime u i) = true :=
  uptimePattern_parts _ _ _ _ (Nat.mod_lt _ (by omega))
    (Nat.mod_lt _ (by omega))

end AsterinasCpuStat
